import Mathlib

/-!
Verification of the `entrypoint` crate (src/entrypoint/src/lib.rs): a shallow
embedding of its configuration pipeline — dotenv-file loading
(`DotEnvParser::process_dotenv_files`), logging initialization
(`Logger::log_init`) and the orchestration (`Entrypoint::entrypoint`) — with
theorems about the behaviour of each piece.

The process environment is modelled as an association list of variable
bindings, the file system as an association list from paths to file contents,
and the `tracing` global-subscriber state explicitly.  The external collaborator
`dotenvy` is modelled from its documented load/override semantics (set each
binding of the file in order; without override a binding is only set when the
variable is absent).  A file that fails to read or parse is modelled as
contributing no bindings.
-/

/-- The process environment: an ordered list of (name, value) bindings,
each name bound at most once (`setVar` keeps it that way). -/
abbrev Env := List (String × String)

/-- Look a variable up in the environment (`std::env::var`). -/
def lookupEnv (env : Env) (k : String) : Option String :=
  (env.find? (fun kv => kv.1 == k)).map (fun kv => kv.2)

/-- Set a variable in the environment (`std::env::set_var`): replace the
binding when the name is already bound, append it otherwise. -/
def setVar (env : Env) (k v : String) : Env :=
  if (env.find? (fun kv => kv.1 == k)).isSome then
    env.map (fun kv => if kv.1 == k then (kv.1, v) else kv)
  else
    env ++ [(k, v)]

/-- Content of a file on disk: either a parseable dotenv file, given by its
ordered list of bindings, or a file that exists but cannot be read/parsed. -/
inductive FileContent
  | ok (kvs : List (String × String))
  | bad
deriving DecidableEq, Repr

/-- The file system: paths mapped to contents; absent paths are missing files. -/
abbrev FS := List (String × FileContent)

/-- Read a file from the file system. -/
def readFile (fs : FS) (p : String) : Option FileContent :=
  (fs.find? (fun f => f.1 == p)).map (fun f => f.2)

/-- Model of `dotenvy::Error`: an I/O failure (e.g. missing file) or a parse failure. -/
inductive DotenvErr
  | io
  | lineParse
deriving DecidableEq, Repr

/-- Apply a dotenv file's bindings without override (`dotenvy::from_filename`):
a binding is set only when the variable is not already present. -/
def applyKVsNoOverride (env : Env) (kvs : List (String × String)) : Env :=
  kvs.foldl (fun e kv => if (lookupEnv e kv.1).isSome then e else setVar e kv.1 kv.2) env

/-- Apply a dotenv file's bindings with override
(`dotenvy::from_filename_override`): every binding is set, replacing any
existing value. -/
def applyKVsOverride (env : Env) (kvs : List (String × String)) : Env :=
  kvs.foldl (fun e kv => setVar e kv.1 kv.2) env

/-- Model of `dotenvy::from_filename` / `from_filename_override` (selected by `ov`):
load the named file into the environment, or fail with a `DotenvErr`.
A failing file leaves the environment unchanged. -/
def fromFilenameWith (ov : Bool) (fs : FS) (env : Env) (path : String) :
    Except DotenvErr Env :=
  match readFile fs path with
  | none => .error .io
  | some .bad => .error .lineParse
  | some (.ok kvs) =>
      .ok (if ov then applyKVsOverride env kvs else applyKVsNoOverride env kvs)

/-- The `tracing` level filters (`tracing_subscriber::filter::LevelFilter`). -/
inductive LevelFilter
  | off
  | error
  | warn
  | info
  | debug
  | trace
deriving DecidableEq, Repr

/-- Verbosity rank of a level filter (`off` least, `trace` most verbose). -/
def LevelFilter.toNat : LevelFilter → Nat
  | .off => 0
  | .error => 1
  | .warn => 2
  | .info => 3
  | .debug => 4
  | .trace => 5

/-- The more verbose of two level filters. -/
def lubLevel (a b : LevelFilter) : LevelFilter :=
  if b.toNat ≤ a.toNat then a else b

/-- Printed name of a level (`tracing::Level` display, as logged by
`log_init`'s `info!`). -/
def levelName : LevelFilter → String
  | .off => "OFF"
  | .error => "ERROR"
  | .warn => "WARN"
  | .info => "INFO"
  | .debug => "DEBUG"
  | .trace => "TRACE"

/-- A sink layer, reduced to the one attribute the claims observe: its level
filter (formatter and writer do not influence control flow). -/
abbrev Layer := LevelFilter

/-- The configuration handle: a parsed `clap` struct together with its
`DotEnvParserConfig` and `LoggerConfig` trait methods
(`additional_dotenv_files`, `dotenv_can_override`, `bypass_log_init`,
`default_log_level`), modelled as record fields. -/
structure Config where
  additional_dotenv_files : Option (List String)
  dotenv_can_override : Bool
  bypass_log_init : Bool
  default_log_level : LevelFilter
deriving DecidableEq, Repr

/-- Model of `LoggerConfig::default_log_layer`: the default reload-wrapped fmt layer,
observed through its level filter `default_log_level`. -/
def default_log_layer (c : Config) : Layer := c.default_log_level

/-- A log record emitted during setup (`info!` / `warn!` / `error!`). -/
inductive LogLine
  | infoLine (msg : String)
  | warnLine (msg : String)
  | errorLine (msg : String)
deriving DecidableEq, Repr

/-- Error values produced by the pipeline (`anyhow::Error`): a `bail!` message
or a propagated `dotenvy` error. -/
inductive Error
  | message (s : String)
  | dotenv (e : DotenvErr)
deriving DecidableEq, Repr

instance {ε α : Type} [DecidableEq ε] [DecidableEq α] : DecidableEq (Except ε α) := fun a b =>
  match a, b with
  | .ok x, .ok y =>
      if h : x = y then isTrue (by rw [h]) else isFalse (fun hc => h (Except.ok.inj hc))
  | .error x, .error y =>
      if h : x = y then isTrue (by rw [h]) else isFalse (fun hc => h (Except.error.inj hc))
  | .ok _, .error _ => isFalse (fun hc => Except.noConfusion hc)
  | .error _, .ok _ => isFalse (fun hc => Except.noConfusion hc)

/-- Output of `process_dotenv_files`: the mutated environment, the log lines
emitted, and the returned `anyhow::Result<Self>`. -/
structure LoadOut where
  env : Env
  logs : List LogLine
  result : Except Error Config
deriving DecidableEq, Repr

/-- The log message `process_dotenv_files` formats for a processed file. -/
def dotenvMsg (ov : Bool) (file : String) : String :=
  (if ov then "dotenv::from_filename_override(" else "dotenv::from_filename(") ++ file ++ ")"

/-- The default `.env` step of `process_dotenv_files` (lib.rs lines 476-483):
`dotenvy::dotenv()` or `dotenv_override()`, an `info!` on success, and any
failure suppressed with a `warn!` ("no .env file found"). -/
def defaultDotenvStep (c : Config) (fs : FS) (env : Env) : Env × List LogLine :=
  match fromFilenameWith c.dotenv_can_override fs env ".env" with
  | .ok e => (e, [.infoLine (dotenvMsg c.dotenv_can_override ".env")])
  | .error _ => (env, [.warnLine "no .env file found"])

/-- One step of the fold over `additional_dotenv_files` (lib.rs lines 488-508):
load the file (`info!` on success, `error!` on failure) and combine with the
accumulator as `process(...).and(accum)` — a failure of the current file
becomes the accumulator, a success keeps the previous accumulator. -/
def processOneFile (c : Config) (fs : FS)
    (st : Env × List LogLine × Except DotenvErr Unit) (file : String) :
    Env × List LogLine × Except DotenvErr Unit :=
  match st with
  | (env, logs, accum) =>
    match fromFilenameWith c.dotenv_can_override fs env file with
    | .ok e => (e, logs ++ [.infoLine (dotenvMsg c.dotenv_can_override file)], accum)
    | .error err => (env, logs ++ [.errorLine (dotenvMsg c.dotenv_can_override file)], .error err)

/-- Model of `DotEnvParser::process_dotenv_files` (lib.rs lines 475-512): process the
default `.env` (failures suppressed), then fold over
`additional_dotenv_files` in order, attempting every file; fail afterwards
if the accumulated result is an error, otherwise return the handle. -/
def process_dotenv_files (c : Config) (fs : FS) (env : Env) : LoadOut :=
  let s1 := defaultDotenvStep c fs env
  match c.additional_dotenv_files with
  | none => { env := s1.1, logs := s1.2, result := .ok c }
  | some files =>
    let s2 := files.foldl (processOneFile c fs) (s1.1, s1.2, Except.ok ())
    match s2.2.2 with
    | .ok _ => { env := s2.1, logs := s2.2.1, result := .ok c }
    | .error e => { env := s2.1, logs := s2.2.1, result := .error (.dotenv e) }

/-- The `tracing` process-global subscriber state: the globally installed
layers, if any (`set_global_default` performed), and the level of a
thread-default subscriber installed by `set_default`, if one is active. -/
structure GlobalState where
  globalLayers : Option (List Layer)
  tempLevel : Option LevelFilter
deriving DecidableEq, Repr

/-- Whether a global subscriber has been installed. -/
def GlobalState.installed (st : GlobalState) : Bool := st.globalLayers.isSome

/-- Most verbose level among a list of layers (`off` when empty). -/
def maxLevel (ls : List Layer) : LevelFilter := ls.foldl lubLevel .off

/-- Model of `LevelFilter::current()`: the maximum level hint over the installed global
subscriber and any active thread-default subscriber; `off` when neither
exists. -/
def GlobalState.currentLevel (st : GlobalState) : LevelFilter :=
  lubLevel (match st.globalLayers with | some ls => maxLevel ls | none => .off)
    (st.tempLevel.getD .off)

/-- Result of a call that may `bail!`, succeed, or panic (a failed `expect`). -/
inductive Outcome (α : Type)
  | panicked
  | failed (e : Error)
  | succeeded (a : α)
deriving DecidableEq, Repr

/-- Whether an outcome is a returned error. -/
def Outcome.isFailed {α : Type} : Outcome α → Bool
  | .failed _ => true
  | _ => false

/-- Output of `log_init`: the global subscriber state afterwards, the log
lines emitted, and the returned `anyhow::Result<Self>` (or a panic). -/
structure InitOut where
  state : GlobalState
  logs : List LogLine
  outcome : Outcome Config
deriving DecidableEq, Repr

/-- Model of the `info!("log level: ...")` report at the end of `log_init`
(lib.rs lines 369-374): `tracing`'s `info!` macro evaluates its field
arguments lazily, only when an INFO event is enabled, i.e. when
`Level::INFO <= LevelFilter::current()`; only then does
`LevelFilter::current().into_level().expect(...)` run, and it would panic
exactly when the current filter is `off` — which INFO-enablement precludes.
When the event is disabled nothing is evaluated and no record is emitted.
Returns the records emitted and whether the `expect` panicked. -/
def levelReport (st : GlobalState) : List LogLine × Bool :=
  if LevelFilter.info.toNat ≤ st.currentLevel.toNat then
    if st.currentLevel = .off then ([], true)
    else ([.infoLine ("log level: " ++ levelName st.currentLevel)], false)
  else ([], false)

/-- The tail of `log_init` once an install is attempted (lib.rs lines
360-377): `registry().with(layers).try_init()` fails iff a global subscriber
is already installed, in which case `log_init` bails; on success the layers
become the global subscriber and the (lazily evaluated) `info!` level report
runs against the new current filter. -/
def installAndReport (c : Config) (ls : List Layer) (st : GlobalState) : InitOut :=
  if st.installed then
    { state := st, logs := [],
      outcome := .failed (.message "tracing::subscriber::set_global_default failed") }
  else
    let st2 : GlobalState := { st with globalLayers := some ls }
    if (levelReport st2).2 then
      { state := st2, logs := (levelReport st2).1, outcome := .panicked }
    else
      { state := st2, logs := (levelReport st2).1, outcome := .succeeded c }

/-- Model of `Logger::log_init` (lib.rs lines 348-377): with `bypass_log_init()` false,
supplied layers are an error and `None` installs the default layer; with
bypass true, supplied layers are installed and `None` skips installation
entirely (`layers.is_some()` is false), going straight to the lazily
evaluated `info!("log level: ...")` report and returning the handle. -/
def log_init (c : Config) (layers : Option (List Layer)) (st : GlobalState) : InitOut :=
  match c.bypass_log_init, layers with
  | false, some _ =>
      { state := st, logs := [],
        outcome := .failed (.message "bypass_log_init() is false, but layers were passed into log_init()") }
  | false, none => installAndReport c [default_log_layer c] st
  | true, some ls => installAndReport c ls st
  | true, none =>
      if (levelReport st).2 then
        { state := st, logs := (levelReport st).1, outcome := .panicked }
      else
        { state := st, logs := (levelReport st).1, outcome := .succeeded c }

/-- Output of `entrypoint`: final environment, final global subscriber state,
log lines emitted during setup, and the returned `anyhow::Result<T>`. -/
structure EntryOut (α : Type) where
  env : Env
  state : GlobalState
  logs : List LogLine
  result : Outcome α

/-- Model of `Entrypoint::entrypoint` (lib.rs lines 133-150): inside a block with a
temporary thread-default fmt subscriber (level `info`), run
`process_dotenv_files` on the handle, re-parse a fresh handle (`Self::parse()`
reads the now-updated environment), run `process_dotenv_files` on the fresh
handle, then `log_init(None)`; any `?`-propagated error exits the block (the
temporary subscriber guard drops, restoring the previous thread default).
After the block an `info!` marks setup complete and the user function runs on
the fresh handle, its result returned unchanged. -/
def entrypoint {α : Type} (c : Config) (parse : Env → Config) (fs : FS) (env : Env)
    (st : GlobalState) (f : Config → Except Error α) : EntryOut α :=
  let st1 : GlobalState := { st with tempLevel := some .info }
  let p1 := process_dotenv_files c fs env
  match p1.result with
  | .error e =>
      { env := p1.env, state := { st1 with tempLevel := st.tempLevel },
        logs := p1.logs, result := .failed e }
  | .ok _ =>
    let c2 := parse p1.env
    let p2 := process_dotenv_files c2 fs p1.env
    match p2.result with
    | .error e =>
        { env := p2.env, state := { st1 with tempLevel := st.tempLevel },
          logs := p1.logs ++ p2.logs, result := .failed e }
    | .ok _ =>
      let li := log_init c2 none st1
      match li.outcome with
      | .panicked =>
          { env := p2.env, state := { li.state with tempLevel := st.tempLevel },
            logs := p1.logs ++ p2.logs ++ li.logs, result := .panicked }
      | .failed e =>
          { env := p2.env, state := { li.state with tempLevel := st.tempLevel },
            logs := p1.logs ++ p2.logs ++ li.logs, result := .failed e }
      | .succeeded c3 =>
          { env := p2.env, state := { li.state with tempLevel := st.tempLevel },
            logs := p1.logs ++ p2.logs ++ li.logs
              ++ [.infoLine "setup/config complete; executing entrypoint function"],
            result := match f c3 with
                      | .ok a => .succeeded a
                      | .error e => .failed e }

/-! ## Theorems about `Logger::log_init` -/

/-- A handle with every trait method at its default implementation
(`additional_dotenv_files = None`, `dotenv_can_override = false`,
`bypass_log_init = false`, `default_log_level = INFO`). -/
def defaultConfig : Config :=
  { additional_dotenv_files := none, dotenv_can_override := false,
    bypass_log_init := false, default_log_level := .info }

/-- The default handle with `bypass_log_init` overridden to `true`. -/
def bypassConfig : Config := { defaultConfig with bypass_log_init := true }

/-- A subscriber state with no global subscriber and an active thread-default
subscriber at level `info` (the state inside `entrypoint`'s setup block). -/
def freshWithTemp : GlobalState := { globalLayers := none, tempLevel := some .info }

/-- A fresh `tracing` state: no global subscriber, no thread default, so
`LevelFilter::current()` is `OFF`. -/
def freshState : GlobalState := { globalLayers := none, tempLevel := none }

theorem levelReport_no_panic (st : GlobalState) : (levelReport st).2 = false := by
  cases h : st.currentLevel <;> simp [levelReport, h, LevelFilter.toNat]

/-- C2 (counterexample): with `bypass_log_init() = true` and `layers = None`,
`log_init` does not return an error — it succeeds without installing
anything, contradicting the claim that omitting layers in bypass mode is
always an error. -/
theorem log_init_bypass_none_succeeds :
    (log_init bypassConfig none freshWithTemp).outcome = .succeeded bypassConfig ∧
    (log_init bypassConfig none freshWithTemp).outcome.isFailed = false := by
  constructor <;> rfl

/-- C2 (amended): supplying layers when `bypass_log_init()` is false is an
error; omitting them when bypass is true is not an error — `log_init`
installs nothing and returns Ok with the unchanged handle, leaving the
subscriber state untouched, whatever the current level filter is (the
trailing `info!` report is lazily evaluated and cannot panic). -/
theorem log_init_layer_supply_rules (c : Config) (layers : Option (List Layer))
    (st : GlobalState) :
    (c.bypass_log_init = false → ∀ ls, layers = some ls →
      (log_init c layers st).outcome =
        .failed (.message "bypass_log_init() is false, but layers were passed into log_init()")) ∧
    (c.bypass_log_init = true → layers = none →
      (log_init c layers st).state = st ∧
      (log_init c layers st).outcome = .succeeded c) := by
  constructor
  · intro hb ls hl
    subst hl
    simp [log_init, hb]
  · intro hb hl
    subst hl
    simp [log_init, hb, levelReport_no_panic]

/-- Witness for `log_init_layer_supply_rules` at concrete inputs: the default
handle rejects supplied layers, and the bypass handle succeeds with none even
on a completely fresh state (current filter `OFF`). -/
theorem log_init_layer_supply_rules_witness :
    (log_init defaultConfig (some [LevelFilter.debug]) freshWithTemp).outcome =
      .failed (.message "bypass_log_init() is false, but layers were passed into log_init()") ∧
    (log_init bypassConfig none freshState).state = freshState ∧
    (log_init bypassConfig none freshState).outcome = .succeeded bypassConfig :=
  ⟨(log_init_layer_supply_rules defaultConfig (some [LevelFilter.debug]) freshWithTemp).1
      rfl [LevelFilter.debug] rfl,
   (log_init_layer_supply_rules bypassConfig none freshState).2 rfl rfl⟩

/-- C3: when a global subscriber is already installed, any call to `log_init`
that would install one (bypass false, or bypass true with layers supplied)
returns an error, and the subscriber state — in particular the installed
sink — is left unchanged. -/
theorem log_init_already_installed_fails (c : Config) (layers : Option (List Layer))
    (st : GlobalState) (hinst : st.installed = true)
    (h : c.bypass_log_init = false ∨ layers.isSome = true) :
    (∃ e, (log_init c layers st).outcome = .failed e) ∧
    (log_init c layers st).state = st := by
  cases hb : c.bypass_log_init <;> cases layers <;>
    simp_all [log_init, installAndReport, hinst]

/-- Witness for `log_init_already_installed_fails`: a second default
installation attempt on an installed state fails and leaves the state as is. -/
theorem log_init_already_installed_fails_witness :
    GlobalState.installed { globalLayers := some [LevelFilter.info], tempLevel := none } = true ∧
    (log_init defaultConfig none
        { globalLayers := some [LevelFilter.info], tempLevel := none }).state =
      { globalLayers := some [LevelFilter.info], tempLevel := none } :=
  ⟨rfl,
   (log_init_already_installed_fails defaultConfig none
      { globalLayers := some [LevelFilter.info], tempLevel := none } rfl (Or.inl rfl)).2⟩

/-- C10 (counterexample): with no subscriber at all the current filter is
`OFF`, yet `log_init` on its success path returns Ok with the unchanged
handle and emits nothing — `tracing`'s `info!` is disabled at `OFF`, so the
`into_level().expect(...)` argument is never evaluated and no panic occurs,
contradicting the claim that an `OFF` effective filter makes `log_init`
panic instead of returning a result. -/
theorem log_init_off_returns_ok :
    GlobalState.currentLevel freshState = .off ∧
    (log_init bypassConfig none freshState).outcome = .succeeded bypassConfig ∧
    (log_init bypassConfig none freshState).logs = [] :=
  ⟨rfl, rfl, rfl⟩

/-- C10 (amended): the `expect` inside `log_init`'s `info!("log level: ...")`
report is evaluated lazily, only when an INFO event is enabled — which
precludes a current filter of `OFF` — so `log_init` never panics; whenever it
succeeds it returns the unchanged input handle, and its log output is exactly
what the (possibly disabled) `info!` report emits against the resulting
subscriber state. -/
theorem log_init_never_panics (c : Config) (layers : Option (List Layer))
    (st : GlobalState) :
    (log_init c layers st).outcome ≠ .panicked ∧
    (∀ x, (log_init c layers st).outcome = .succeeded x →
      x = c ∧
      (log_init c layers st).logs = (levelReport (log_init c layers st).state).1) := by
  cases hb : c.bypass_log_init <;> cases layers <;>
    simp_all [log_init, installAndReport, levelReport_no_panic] <;>
    split <;> simp_all [levelReport_no_panic]

/-- Witness for `log_init_never_panics`: the bypass no-op on a fresh state
(current filter `OFF`) succeeds with the unchanged handle and the (empty)
output of the disabled report. -/
theorem log_init_never_panics_witness :
    bypassConfig = bypassConfig ∧
    (log_init bypassConfig none freshState).logs =
      (levelReport (log_init bypassConfig none freshState).state).1 :=
  (log_init_never_panics bypassConfig none freshState).2 bypassConfig rfl

/-! ## Environment lemmas -/

theorem lookupEnv_setVar (env : Env) (k v k' : String) :
    lookupEnv (setVar env k v) k' = if k' = k then some v else lookupEnv env k' := by
  rcases hfind0 : env.find? (fun kv => kv.1 == k) with _ | a0
  · have hset : setVar env k v = env ++ [(k, v)] := by
      simp [setVar, hfind0]
    rw [hset]
    unfold lookupEnv
    rw [List.find?_append]
    by_cases he : k' = k
    · subst he
      rw [hfind0]
      simp [List.find?_cons]
    · have hb : (k == k') = false := beq_eq_false_iff_ne.mpr (fun hc => he hc.symm)
      have h2 : List.find? (fun kv : String × String => kv.1 == k') [(k, v)] = none := by
        simp [List.find?_cons, hb]
      rw [h2]
      simp [he]
  · have hset : setVar env k v =
        env.map (fun kv => if kv.1 == k then (kv.1, v) else kv) := by
      simp [setVar, hfind0]
    rw [hset]
    unfold lookupEnv
    rw [List.find?_map]
    have hcomp : ((fun kv : String × String => kv.1 == k') ∘
        (fun kv : String × String => if kv.1 == k then (kv.1, v) else kv)) =
        (fun kv : String × String => kv.1 == k') := by
      funext kv
      by_cases h : kv.1 = k <;> simp [h]
    rw [hcomp]
    rcases hfind : env.find? (fun kv : String × String => kv.1 == k') with _ | a
    · have hne : k' ≠ k := by
        intro he
        subst he
        rw [hfind] at hfind0
        cases hfind0
      simp [hne]
    · have ha : a.1 = k' := by
        have := List.find?_some hfind
        simpa using this
      by_cases he : k' = k
      · subst he
        simp [ha]
      · have hne : a.1 ≠ k := by
          rw [ha]
          exact he
        simp [he, hne]

theorem applyKVsNoOverride_cons (env : Env) (p : String × String) (kvs : List (String × String)) :
    applyKVsNoOverride env (p :: kvs) =
      applyKVsNoOverride (if (lookupEnv env p.1).isSome then env else setVar env p.1 p.2) kvs := rfl

theorem lookupEnv_applyKVsNoOverride_of_some (kvs : List (String × String)) :
    ∀ (env : Env) (k v : String), lookupEnv env k = some v →
      lookupEnv (applyKVsNoOverride env kvs) k = some v := by
  induction kvs with
  | nil => intro env k v h; exact h
  | cons p rest ih =>
    intro env k v h
    rw [applyKVsNoOverride_cons]
    by_cases hp : (lookupEnv env p.1).isSome = true
    · rw [if_pos hp]
      exact ih env k v h
    · rw [if_neg hp]
      apply ih
      rw [lookupEnv_setVar]
      have hne : k ≠ p.1 := by
        intro he
        subst he
        rw [h] at hp
        simp at hp
      rw [if_neg hne]
      exact h

theorem lookupEnv_applyKVsNoOverride_isSome (kvs : List (String × String)) (env : Env)
    (k : String) (h : (lookupEnv env k).isSome = true) :
    (lookupEnv (applyKVsNoOverride env kvs) k).isSome = true := by
  obtain ⟨v, hv⟩ := Option.isSome_iff_exists.mp h
  rw [lookupEnv_applyKVsNoOverride_of_some kvs env k v hv]
  rfl

/-- Every binding name of `kvs` is bound in `env`. -/
def keysPresent (env : Env) (kvs : List (String × String)) : Prop :=
  ∀ kv ∈ kvs, (lookupEnv env kv.1).isSome = true

theorem keysPresent_applyKVsNoOverride (kvs : List (String × String)) :
    ∀ env : Env, keysPresent (applyKVsNoOverride env kvs) kvs := by
  induction kvs with
  | nil => intro env kv hkv; cases hkv
  | cons p rest ih =>
    intro env kv hkv
    rw [applyKVsNoOverride_cons]
    have henv : (lookupEnv
        (if (lookupEnv env p.1).isSome then env else setVar env p.1 p.2) p.1).isSome = true := by
      by_cases hp : (lookupEnv env p.1).isSome = true
      · rw [if_pos hp]; exact hp
      · rw [if_neg hp, lookupEnv_setVar, if_pos rfl]; rfl
    rcases List.mem_cons.mp hkv with hkv | hkv
    · subst hkv
      exact lookupEnv_applyKVsNoOverride_isSome rest _ kv.1 henv
    · exact ih _ kv hkv

theorem applyKVsNoOverride_id_of_keysPresent (kvs : List (String × String)) :
    ∀ env : Env, keysPresent env kvs → applyKVsNoOverride env kvs = env := by
  induction kvs with
  | nil => intro env _; rfl
  | cons p rest ih =>
    intro env h
    rw [applyKVsNoOverride_cons]
    have hp : (lookupEnv env p.1).isSome = true := h p (List.mem_cons_self p rest)
    rw [if_pos hp]
    exact ih env (fun kv hkv => h kv (List.mem_cons_of_mem p hkv))

/-- Left-biased choice on optional values. -/
def orO : Option String → Option String → Option String
  | some v, _ => some v
  | none, b => b

theorem orO_none_right (x : Option String) : orO x none = x := by
  cases x <;> rfl

theorem orO_assoc (x y z : Option String) : orO (orO x y) z = orO x (orO y z) := by
  cases x <;> rfl

/-- Value of the last binding of `k` in a list of bindings, if any. -/
def lastVal : List (String × String) → String → Option String
  | [], _ => none
  | p :: rest, k => orO (lastVal rest k) (if p.1 = k then some p.2 else none)

theorem applyKVsOverride_cons (env : Env) (p : String × String) (kvs : List (String × String)) :
    applyKVsOverride env (p :: kvs) = applyKVsOverride (setVar env p.1 p.2) kvs := rfl

theorem applyKVsOverride_append (env : Env) (a b : List (String × String)) :
    applyKVsOverride env (a ++ b) = applyKVsOverride (applyKVsOverride env a) b := by
  unfold applyKVsOverride
  rw [List.foldl_append]

theorem lookupEnv_applyKVsOverride (kvs : List (String × String)) :
    ∀ (env : Env) (k : String),
      lookupEnv (applyKVsOverride env kvs) k = orO (lastVal kvs k) (lookupEnv env k) := by
  induction kvs with
  | nil => intro env k; rfl
  | cons p rest ih =>
    intro env k
    rw [applyKVsOverride_cons, ih, lookupEnv_setVar]
    show orO (lastVal rest k) _ = orO (orO (lastVal rest k) _) _
    rw [orO_assoc]
    rcases lastVal rest k with _ | v
    · show (if k = p.1 then some p.2 else lookupEnv env k) =
        orO (if p.1 = k then some p.2 else none) (lookupEnv env k)
      by_cases he : p.1 = k
      · rw [if_pos he, if_pos he.symm]
        rfl
      · rw [if_neg he, if_neg (fun hc => he hc.symm)]
        rfl
    · rfl

theorem lastVal_append (a b : List (String × String)) (k : String) :
    lastVal (a ++ b) k = orO (lastVal b k) (lastVal a k) := by
  induction a with
  | nil =>
    show lastVal b k = orO (lastVal b k) none
    rw [orO_none_right]
  | cons p a' ih =>
    show orO (lastVal (a' ++ b) k) _ = orO (lastVal b k) (orO (lastVal a' k) _)
    rw [ih, orO_assoc]

/-! ## Lemmas about `process_dotenv_files` with override disabled -/

theorem fromFilenameWith_false_preserves (fs : FS) (env : Env) (path k v : String)
    (h : lookupEnv env k = some v) (e' : Env)
    (he : fromFilenameWith false fs env path = .ok e') : lookupEnv e' k = some v := by
  unfold fromFilenameWith at he
  rcases hr : readFile fs path with _ | fc
  · rw [hr] at he
    cases he
  · rcases fc with kvs | _
    · rw [hr] at he
      simp only [Bool.false_eq_true, if_false, Except.ok.injEq] at he
      subst he
      exact lookupEnv_applyKVsNoOverride_of_some kvs env k v h
    · rw [hr] at he
      cases he

theorem defaultDotenvStep_preserves (c : Config) (hc : c.dotenv_can_override = false)
    (fs : FS) (env : Env) (k v : String) (h : lookupEnv env k = some v) :
    lookupEnv (defaultDotenvStep c fs env).1 k = some v := by
  unfold defaultDotenvStep
  rcases he : fromFilenameWith c.dotenv_can_override fs env ".env" with err | env'
  · exact h
  · rw [hc] at he
    exact fromFilenameWith_false_preserves fs env ".env" k v h env' he

theorem foldl_processOneFile_preserves (c : Config) (hc : c.dotenv_can_override = false)
    (fs : FS) (files : List String) :
    ∀ (env : Env) (logs : List LogLine) (accum : Except DotenvErr Unit) (k v : String),
      lookupEnv env k = some v →
      lookupEnv ((files.foldl (processOneFile c fs) (env, logs, accum)).1) k = some v := by
  induction files with
  | nil =>
    intro env logs accum k v h
    exact h
  | cons fl rest ih =>
    intro env logs accum k v h
    rw [List.foldl_cons]
    rcases he : fromFilenameWith c.dotenv_can_override fs env fl with err | env'
    · simp only [processOneFile, he]
      exact ih env _ _ k v h
    · simp only [processOneFile, he]
      rw [hc] at he
      exact ih env' _ _ k v (fromFilenameWith_false_preserves fs env fl k v h env' he)

theorem foldl_processOneFile_isSome (c : Config) (hc : c.dotenv_can_override = false)
    (fs : FS) (files : List String) (env : Env) (logs : List LogLine)
    (accum : Except DotenvErr Unit) (k : String) (h : (lookupEnv env k).isSome = true) :
    (lookupEnv ((files.foldl (processOneFile c fs) (env, logs, accum)).1) k).isSome = true := by
  obtain ⟨v, hv⟩ := Option.isSome_iff_exists.mp h
  rw [foldl_processOneFile_preserves c hc fs files env logs accum k v hv]
  rfl

theorem foldl_processOneFile_keysPresent (c : Config) (hc : c.dotenv_can_override = false)
    (fs : FS) (files : List String) :
    ∀ (env : Env) (logs : List LogLine) (accum : Except DotenvErr Unit) (f : String)
      (kvs : List (String × String)), f ∈ files → readFile fs f = some (.ok kvs) →
      keysPresent ((files.foldl (processOneFile c fs) (env, logs, accum)).1) kvs := by
  induction files with
  | nil =>
    intro env logs accum f kvs hf _
    cases hf
  | cons fl rest ih =>
    intro env logs accum f kvs hf hr
    rw [List.foldl_cons]
    rcases List.mem_cons.mp hf with hf | hf
    · subst hf
      have he : fromFilenameWith c.dotenv_can_override fs env f =
          .ok (applyKVsNoOverride env kvs) := by
        rw [hc]
        unfold fromFilenameWith
        rw [hr]
        simp
      simp only [processOneFile, he]
      intro kv hkv
      exact foldl_processOneFile_isSome c hc fs rest _ _ _ kv.1
        (keysPresent_applyKVsNoOverride kvs env kv hkv)
    · rcases he : fromFilenameWith c.dotenv_can_override fs env fl with err | env' <;>
        simp only [processOneFile, he] <;>
        exact ih _ _ _ f kvs hf hr

theorem defaultDotenvStep_keysPresent (c : Config) (hc : c.dotenv_can_override = false)
    (fs : FS) (env : Env) (kvs : List (String × String))
    (hr : readFile fs ".env" = some (.ok kvs)) :
    keysPresent (defaultDotenvStep c fs env).1 kvs := by
  have he : fromFilenameWith c.dotenv_can_override fs env ".env" =
      .ok (applyKVsNoOverride env kvs) := by
    rw [hc]
    unfold fromFilenameWith
    rw [hr]
    simp
  unfold defaultDotenvStep
  rw [he]
  exact keysPresent_applyKVsNoOverride kvs env

theorem foldl_processOneFile_env_id (c : Config) (hc : c.dotenv_can_override = false)
    (fs : FS) (files : List String) :
    ∀ (env : Env) (logs : List LogLine) (accum : Except DotenvErr Unit),
      (∀ f ∈ files, ∀ kvs, readFile fs f = some (.ok kvs) → keysPresent env kvs) →
      (files.foldl (processOneFile c fs) (env, logs, accum)).1 = env := by
  induction files with
  | nil =>
    intro env logs accum _
    rfl
  | cons fl rest ih =>
    intro env logs accum h
    rw [List.foldl_cons]
    rcases he : fromFilenameWith c.dotenv_can_override fs env fl with err | env'
    · simp only [processOneFile, he]
      exact ih _ _ _ (fun f hf => h f (List.mem_cons_of_mem fl hf))
    · have henv' : env' = env := by
        rw [hc] at he
        unfold fromFilenameWith at he
        rcases hr : readFile fs fl with _ | fc
        · rw [hr] at he; cases he
        · rcases fc with kvs | _
          · rw [hr] at he
            simp only [Bool.false_eq_true, if_false, Except.ok.injEq] at he
            rw [← he]
            exact applyKVsNoOverride_id_of_keysPresent kvs env
              (h fl (List.mem_cons_self fl rest) kvs hr)
          · rw [hr] at he; cases he
      simp only [processOneFile, he, henv']
      exact ih _ _ _ (fun f hf => h f (List.mem_cons_of_mem fl hf))

theorem defaultDotenvStep_env_id (c : Config) (hc : c.dotenv_can_override = false)
    (fs : FS) (env : Env)
    (h : ∀ kvs, readFile fs ".env" = some (.ok kvs) → keysPresent env kvs) :
    (defaultDotenvStep c fs env).1 = env := by
  unfold defaultDotenvStep
  rcases he : fromFilenameWith c.dotenv_can_override fs env ".env" with err | env'
  · rfl
  · rw [hc] at he
    unfold fromFilenameWith at he
    rcases hr : readFile fs ".env" with _ | fc
    · rw [hr] at he; cases he
    · rcases fc with kvs | _
      · rw [hr] at he
        simp only [Bool.false_eq_true, if_false, Except.ok.injEq] at he
        rw [← he]
        exact applyKVsNoOverride_id_of_keysPresent kvs env (h kvs hr)
      · rw [hr] at he; cases he

theorem process_dotenv_files_none_eq (c : Config) (fs : FS) (env : Env)
    (hadd : c.additional_dotenv_files = none) :
    process_dotenv_files c fs env =
      { env := (defaultDotenvStep c fs env).1, logs := (defaultDotenvStep c fs env).2,
        result := .ok c } := by
  simp only [process_dotenv_files, hadd]

theorem process_dotenv_files_some_eq (c : Config) (fs : FS) (env : Env) (files : List String)
    (hadd : c.additional_dotenv_files = some files) :
    process_dotenv_files c fs env =
      { env := (files.foldl (processOneFile c fs)
            ((defaultDotenvStep c fs env).1, (defaultDotenvStep c fs env).2, Except.ok ())).1,
        logs := (files.foldl (processOneFile c fs)
            ((defaultDotenvStep c fs env).1, (defaultDotenvStep c fs env).2, Except.ok ())).2.1,
        result :=
          match (files.foldl (processOneFile c fs)
              ((defaultDotenvStep c fs env).1, (defaultDotenvStep c fs env).2,
                Except.ok ())).2.2 with
          | .ok _ => .ok c
          | .error e => .error (.dotenv e) } := by
  simp only [process_dotenv_files, hadd]
  rcases hx : (files.foldl (processOneFile c fs)
      ((defaultDotenvStep c fs env).1, (defaultDotenvStep c fs env).2,
        Except.ok ())).2.2 with e | u <;>
    rfl

/-- C4: with `dotenv_can_override() = false`, every variable already set before
the call keeps its value after `process_dotenv_files`, even when the default
`.env` or an additional file redefines it; consequently a second invocation of
the loader leaves the environment produced by the first invocation unchanged. -/
theorem process_dotenv_files_no_override_keeps_existing (c : Config) (fs : FS) (env : Env)
    (hc : c.dotenv_can_override = false) :
    (∀ k v, lookupEnv env k = some v →
        lookupEnv (process_dotenv_files c fs env).env k = some v) ∧
    (process_dotenv_files c fs (process_dotenv_files c fs env).env).env =
      (process_dotenv_files c fs env).env := by
  constructor
  · intro k v h
    rcases hadd : c.additional_dotenv_files with _ | files
    · rw [process_dotenv_files_none_eq c fs env hadd]
      exact defaultDotenvStep_preserves c hc fs env k v h
    · rw [process_dotenv_files_some_eq c fs env files hadd]
      exact foldl_processOneFile_preserves c hc fs files _ _ _ k v
        (defaultDotenvStep_preserves c hc fs env k v h)
  · have hcovDef : ∀ kvs, readFile fs ".env" = some (.ok kvs) →
        keysPresent (process_dotenv_files c fs env).env kvs := by
      intro kvs hr
      rcases hadd : c.additional_dotenv_files with _ | files
      · rw [process_dotenv_files_none_eq c fs env hadd]
        exact defaultDotenvStep_keysPresent c hc fs env kvs hr
      · rw [process_dotenv_files_some_eq c fs env files hadd]
        intro kv hkv
        exact foldl_processOneFile_isSome c hc fs files _ _ _ kv.1
          (defaultDotenvStep_keysPresent c hc fs env kvs hr kv hkv)
    have hcovAdd : ∀ files, c.additional_dotenv_files = some files →
        ∀ f ∈ files, ∀ kvs, readFile fs f = some (.ok kvs) →
          keysPresent (process_dotenv_files c fs env).env kvs := by
      intro files hadd f hf kvs hr
      rw [process_dotenv_files_some_eq c fs env files hadd]
      exact foldl_processOneFile_keysPresent c hc fs files _ _ _ f kvs hf hr
    rcases hadd : c.additional_dotenv_files with _ | files
    · rw [process_dotenv_files_none_eq c fs ((process_dotenv_files c fs env).env) hadd]
      exact defaultDotenvStep_env_id c hc fs _ hcovDef
    · rw [process_dotenv_files_some_eq c fs ((process_dotenv_files c fs env).env) files hadd]
      show (List.foldl (processOneFile c fs) _ files).1 = _
      rw [defaultDotenvStep_env_id c hc fs _ hcovDef]
      exact foldl_processOneFile_env_id c hc fs files _ _ _
        (fun f hf kvs hr => hcovAdd files hadd f hf kvs hr)

/-- Witness for `process_dotenv_files_no_override_keeps_existing`: a
preexisting variable `K` survives a `.env` and an additional file that both
redefine it. -/
theorem process_dotenv_files_no_override_keeps_existing_witness :
    lookupEnv [("K", "0")] "K" = some "0" ∧
    lookupEnv (process_dotenv_files
        { additional_dotenv_files := some ["extra.env"], dotenv_can_override := false,
          bypass_log_init := false, default_log_level := .info }
        [(".env", .ok [("K", "1")]), ("extra.env", .ok [("K", "2")])]
        [("K", "0")]).env "K" = some "0" :=
  ⟨rfl,
   (process_dotenv_files_no_override_keeps_existing
      { additional_dotenv_files := some ["extra.env"], dotenv_can_override := false,
        bypass_log_init := false, default_log_level := .info }
      [(".env", .ok [("K", "1")]), ("extra.env", .ok [("K", "2")])]
      [("K", "0")] rfl).1 "K" "0" rfl⟩

/-! ## Lemmas about `process_dotenv_files` with override enabled -/

/-- Bindings a file contributes when processed: its content when it reads and
parses, nothing otherwise. -/
def fileKVs (fs : FS) (f : String) : List (String × String) :=
  match readFile fs f with
  | some (.ok kvs) => kvs
  | _ => []

/-- Concatenated bindings of a list of files, in processing order. -/
def filesKVs (fs : FS) (files : List String) : List (String × String) :=
  files.foldr (fun f acc => fileKVs fs f ++ acc) []

theorem foldl_processOneFile_env_override (c : Config) (hc : c.dotenv_can_override = true)
    (fs : FS) (files : List String) :
    ∀ (env : Env) (logs : List LogLine) (accum : Except DotenvErr Unit),
      (files.foldl (processOneFile c fs) (env, logs, accum)).1 =
        applyKVsOverride env (filesKVs fs files) := by
  induction files with
  | nil =>
    intro env logs accum
    rfl
  | cons fl rest ih =>
    intro env logs accum
    rw [List.foldl_cons]
    have hkvs : filesKVs fs (fl :: rest) = fileKVs fs fl ++ filesKVs fs rest := rfl
    rcases hr : readFile fs fl with _ | fc
    · have he : fromFilenameWith c.dotenv_can_override fs env fl = .error .io := by
        rw [hc]
        unfold fromFilenameWith
        rw [hr]
      simp only [processOneFile, he]
      rw [ih, hkvs]
      have : fileKVs fs fl = [] := by unfold fileKVs; rw [hr]
      rw [this, List.nil_append]
    · rcases fc with kvs | _
      · have he : fromFilenameWith c.dotenv_can_override fs env fl =
            .ok (applyKVsOverride env kvs) := by
          rw [hc]
          unfold fromFilenameWith
          rw [hr]
          simp
        simp only [processOneFile, he]
        rw [ih, hkvs]
        have : fileKVs fs fl = kvs := by unfold fileKVs; rw [hr]
        rw [this, applyKVsOverride_append]
      · have he : fromFilenameWith c.dotenv_can_override fs env fl = .error .lineParse := by
          rw [hc]
          unfold fromFilenameWith
          rw [hr]
        simp only [processOneFile, he]
        rw [ih, hkvs]
        have : fileKVs fs fl = [] := by unfold fileKVs; rw [hr]
        rw [this, List.nil_append]

theorem defaultDotenvStep_env_override (c : Config) (hc : c.dotenv_can_override = true)
    (fs : FS) (env : Env) :
    (defaultDotenvStep c fs env).1 = applyKVsOverride env (fileKVs fs ".env") := by
  unfold defaultDotenvStep
  rcases hr : readFile fs ".env" with _ | fc
  · have he : fromFilenameWith c.dotenv_can_override fs env ".env" = .error .io := by
      rw [hc]
      unfold fromFilenameWith
      rw [hr]
    rw [he]
    have : fileKVs fs ".env" = [] := by unfold fileKVs; rw [hr]
    rw [this]
    rfl
  · rcases fc with kvs | _
    · have he : fromFilenameWith c.dotenv_can_override fs env ".env" =
          .ok (applyKVsOverride env kvs) := by
        rw [hc]
        unfold fromFilenameWith
        rw [hr]
        simp
      rw [he]
      have : fileKVs fs ".env" = kvs := by unfold fileKVs; rw [hr]
      rw [this]
    · have he : fromFilenameWith c.dotenv_can_override fs env ".env" = .error .lineParse := by
        rw [hc]
        unfold fromFilenameWith
        rw [hr]
      rw [he]
      have : fileKVs fs ".env" = [] := by unfold fileKVs; rw [hr]
      rw [this]
      rfl

/-- C5: with `dotenv_can_override() = true`, the files are processed in order —
the default `.env` first, then `additional_dotenv_files()` in the order given —
and for every variable the last processed binding wins: the final value is the
last value bound in the concatenation of the processed files' bindings, or the
original value when no processed file binds the variable. -/
theorem process_dotenv_files_override_last_wins (c : Config) (fs : FS) (env : Env)
    (files : List String) (hc : c.dotenv_can_override = true)
    (hadd : c.additional_dotenv_files = some files) :
    ∀ k, lookupEnv (process_dotenv_files c fs env).env k =
      orO (lastVal (fileKVs fs ".env" ++ filesKVs fs files) k) (lookupEnv env k) := by
  intro k
  rw [process_dotenv_files_some_eq c fs env files hadd]
  show lookupEnv ((files.foldl (processOneFile c fs) _).1) k = _
  rw [foldl_processOneFile_env_override c hc fs files,
    defaultDotenvStep_env_override c hc fs env, ← applyKVsOverride_append,
    lookupEnv_applyKVsOverride]

/-- Witness for `process_dotenv_files_override_last_wins`: `.env` sets `K=1`,
`extra.env` sets `K=2`; with override enabled the final value is `2`. -/
theorem process_dotenv_files_override_last_wins_witness :
    lookupEnv (process_dotenv_files
        { additional_dotenv_files := some ["extra.env"], dotenv_can_override := true,
          bypass_log_init := false, default_log_level := .info }
        [(".env", .ok [("K", "1")]), ("extra.env", .ok [("K", "2")])]
        [("K", "0")]).env "K" =
      orO (lastVal (fileKVs [(".env", .ok [("K", "1")]), ("extra.env", .ok [("K", "2")])] ".env"
          ++ filesKVs [(".env", .ok [("K", "1")]), ("extra.env", .ok [("K", "2")])] ["extra.env"]) "K")
        (lookupEnv [("K", "0")] "K") :=
  process_dotenv_files_override_last_wins
    { additional_dotenv_files := some ["extra.env"], dotenv_can_override := true,
      bypass_log_init := false, default_log_level := .info }
    [(".env", .ok [("K", "1")]), ("extra.env", .ok [("K", "2")])]
    [("K", "0")] ["extra.env"] rfl rfl "K"

/-! ## Error accumulation and logging in `process_dotenv_files` -/

/-- Whether a file would load successfully (exists, readable, parseable). -/
def readsOk (fs : FS) (f : String) : Bool :=
  match readFile fs f with
  | some (.ok _) => true
  | _ => false

/-- The `dotenvy` error a file's load produces, if it would fail. -/
def loadErr (fs : FS) (f : String) : Option DotenvErr :=
  match readFile fs f with
  | none => some .io
  | some .bad => some .lineParse
  | some (.ok _) => none

theorem fromFilenameWith_ok_of_readsOk (ov : Bool) (fs : FS) (env : Env) (f : String)
    (h : readsOk fs f = true) :
    ∃ env', fromFilenameWith ov fs env f = .ok env' := by
  unfold readsOk at h
  unfold fromFilenameWith
  rcases hr : readFile fs f with _ | fc
  · rw [hr] at h
    simp at h
  · rcases fc with kvs | _
    · exact ⟨_, rfl⟩
    · rw [hr] at h
      simp at h

theorem fromFilenameWith_error_of_loadErr (ov : Bool) (fs : FS) (env : Env) (f : String)
    (e : DotenvErr) (h : loadErr fs f = some e) :
    fromFilenameWith ov fs env f = .error e := by
  unfold loadErr at h
  unfold fromFilenameWith
  rcases hr : readFile fs f with _ | fc
  · rw [hr] at h
    rw [show DotenvErr.io = e from by injection h]
  · rcases fc with kvs | _
    · rw [hr] at h
      cases h
    · rw [hr] at h
      rw [show DotenvErr.lineParse = e from by injection h]

theorem loadErr_of_not_readsOk (fs : FS) (f : String) (h : readsOk fs f = false) :
    ∃ e, loadErr fs f = some e := by
  unfold readsOk at h
  unfold loadErr
  rcases hr : readFile fs f with _ | fc
  · exact ⟨.io, rfl⟩
  · rcases fc with kvs | _
    · rw [hr] at h
      cases h
    · exact ⟨.lineParse, rfl⟩

theorem foldl_accum_ok (c : Config) (fs : FS) (files : List String) :
    ∀ (env : Env) (logs : List LogLine), (∀ f ∈ files, readsOk fs f = true) →
      (files.foldl (processOneFile c fs) (env, logs, Except.ok ())).2.2 = Except.ok () := by
  induction files with
  | nil =>
    intro env logs _
    rfl
  | cons fl rest ih =>
    intro env logs h
    rw [List.foldl_cons]
    obtain ⟨env', he⟩ := fromFilenameWith_ok_of_readsOk c.dotenv_can_override fs env fl
      (h fl (List.mem_cons_self fl rest))
    simp only [processOneFile, he]
    exact ih env' _ (fun f hf => h f (List.mem_cons_of_mem fl hf))

theorem foldl_accum_error_stays (c : Config) (fs : FS) (files : List String) :
    ∀ (env : Env) (logs : List LogLine) (e : DotenvErr),
      ∃ e', (files.foldl (processOneFile c fs) (env, logs, Except.error e)).2.2 =
        Except.error e' := by
  induction files with
  | nil =>
    intro env logs e
    exact ⟨e, rfl⟩
  | cons fl rest ih =>
    intro env logs e
    rw [List.foldl_cons]
    rcases he : fromFilenameWith c.dotenv_can_override fs env fl with err | env' <;>
      simp only [processOneFile, he]
    · exact ih _ _ err
    · exact ih _ _ e

theorem foldl_accum_error_of_bad (c : Config) (fs : FS) (files : List String) :
    ∀ (env : Env) (logs : List LogLine) (accum : Except DotenvErr Unit) (f : String),
      f ∈ files → readsOk fs f = false →
      ∃ e', (files.foldl (processOneFile c fs) (env, logs, accum)).2.2 = Except.error e' := by
  induction files with
  | nil =>
    intro _ _ _ _ hf _
    cases hf
  | cons fl rest ih =>
    intro env logs accum f hf hbad
    rw [List.foldl_cons]
    rcases List.mem_cons.mp hf with hf | hf
    · subst hf
      obtain ⟨e, hle⟩ := loadErr_of_not_readsOk fs f hbad
      have he := fromFilenameWith_error_of_loadErr c.dotenv_can_override fs env f e hle
      simp only [processOneFile, he]
      exact foldl_accum_error_stays c fs rest _ _ e
    · rcases he : fromFilenameWith c.dotenv_can_override fs env fl with err | env' <;>
        simp only [processOneFile, he]
      · exact foldl_accum_error_stays c fs rest _ _ err
      · exact ih _ _ _ f hf hbad

theorem foldl_logs_monotone (c : Config) (fs : FS) (files : List String) :
    ∀ (env : Env) (logs : List LogLine) (accum : Except DotenvErr Unit),
      ∃ suffix, (files.foldl (processOneFile c fs) (env, logs, accum)).2.1 = logs ++ suffix := by
  induction files with
  | nil =>
    intro env logs accum
    exact ⟨[], (List.append_nil logs).symm⟩
  | cons fl rest ih =>
    intro env logs accum
    rw [List.foldl_cons]
    rcases he : fromFilenameWith c.dotenv_can_override fs env fl with err | env' <;>
      simp only [processOneFile, he]
    · obtain ⟨s, hs⟩ := ih env (logs ++ [.errorLine (dotenvMsg c.dotenv_can_override fl)])
        (.error err)
      exact ⟨[.errorLine (dotenvMsg c.dotenv_can_override fl)] ++ s,
        by rw [hs, List.append_assoc]⟩
    · obtain ⟨s, hs⟩ := ih env' (logs ++ [.infoLine (dotenvMsg c.dotenv_can_override fl)]) accum
      exact ⟨[.infoLine (dotenvMsg c.dotenv_can_override fl)] ++ s,
        by rw [hs, List.append_assoc]⟩

theorem foldl_logs_attempted (c : Config) (fs : FS) (files : List String) :
    ∀ (env : Env) (logs : List LogLine) (accum : Except DotenvErr Unit) (f : String),
      f ∈ files →
      LogLine.infoLine (dotenvMsg c.dotenv_can_override f)
          ∈ (files.foldl (processOneFile c fs) (env, logs, accum)).2.1 ∨
      LogLine.errorLine (dotenvMsg c.dotenv_can_override f)
          ∈ (files.foldl (processOneFile c fs) (env, logs, accum)).2.1 := by
  induction files with
  | nil =>
    intro _ _ _ _ hf
    cases hf
  | cons fl rest ih =>
    intro env logs accum f hf
    rw [List.foldl_cons]
    rcases List.mem_cons.mp hf with hf | hf
    · subst hf
      rcases he : fromFilenameWith c.dotenv_can_override fs env f with err | env' <;>
        simp only [processOneFile, he]
      · right
        obtain ⟨s, hs⟩ := foldl_logs_monotone c fs rest env
          (logs ++ [.errorLine (dotenvMsg c.dotenv_can_override f)]) (.error err)
        rw [hs]
        simp
      · left
        obtain ⟨s, hs⟩ := foldl_logs_monotone c fs rest env'
          (logs ++ [.infoLine (dotenvMsg c.dotenv_can_override f)]) accum
        rw [hs]
        simp
    · rcases he : fromFilenameWith c.dotenv_can_override fs env fl with err | env' <;>
        simp only [processOneFile, he]
      · exact ih _ _ _ f hf
      · exact ih _ _ _ f hf

theorem foldl_logs_errorLine (c : Config) (fs : FS) (files : List String) :
    ∀ (env : Env) (logs : List LogLine) (accum : Except DotenvErr Unit) (f : String),
      f ∈ files → readsOk fs f = false →
      LogLine.errorLine (dotenvMsg c.dotenv_can_override f)
          ∈ (files.foldl (processOneFile c fs) (env, logs, accum)).2.1 := by
  induction files with
  | nil =>
    intro _ _ _ _ hf _
    cases hf
  | cons fl rest ih =>
    intro env logs accum f hf hbad
    rw [List.foldl_cons]
    rcases List.mem_cons.mp hf with hf | hf
    · subst hf
      obtain ⟨e, hle⟩ := loadErr_of_not_readsOk fs f hbad
      have he := fromFilenameWith_error_of_loadErr c.dotenv_can_override fs env f e hle
      simp only [processOneFile, he]
      obtain ⟨s, hs⟩ := foldl_logs_monotone c fs rest env
        (logs ++ [.errorLine (dotenvMsg c.dotenv_can_override f)]) (.error e)
      rw [hs]
      simp
    · rcases he : fromFilenameWith c.dotenv_can_override fs env fl with err | env' <;>
        simp only [processOneFile, he]
      · exact ih _ _ _ f hf hbad
      · exact ih _ _ _ f hf hbad

theorem process_dotenv_files_result_some (c : Config) (fs : FS) (env : Env)
    (files : List String) (hadd : c.additional_dotenv_files = some files) :
    (process_dotenv_files c fs env).result =
      match (files.foldl (processOneFile c fs)
          ((defaultDotenvStep c fs env).1, (defaultDotenvStep c fs env).2,
            Except.ok ())).2.2 with
      | .ok _ => .ok c
      | .error e => .error (.dotenv e) := by
  rw [process_dotenv_files_some_eq c fs env files hadd]

theorem process_dotenv_files_logs_some (c : Config) (fs : FS) (env : Env)
    (files : List String) (hadd : c.additional_dotenv_files = some files) :
    (process_dotenv_files c fs env).logs =
      (files.foldl (processOneFile c fs)
        ((defaultDotenvStep c fs env).1, (defaultDotenvStep c fs env).2,
          Except.ok ())).2.1 := by
  rw [process_dotenv_files_some_eq c fs env files hadd]

/-- The default handle with two additional dotenv files `a` and `b`. -/
def twoFilesConfig : Config := { defaultConfig with additional_dotenv_files := some ["a", "b"] }

/-- A file system holding only the file `b` (no `.env`, no `a`). -/
def fsOnlyB : FS := [("b", .ok [("X", "2")])]

/-- C6: a missing default `.env` never makes `process_dotenv_files` fail —
whenever every caller-supplied file loads, the call succeeds with no condition
at all on the default file; and a missing caller-supplied file always makes
the call fail, with an `error!` log record naming the offending file path. -/
theorem process_dotenv_files_default_vs_supplied (c : Config) (fs : FS) (env : Env) :
    ((∀ files, c.additional_dotenv_files = some files → ∀ f ∈ files, readsOk fs f = true) →
      (process_dotenv_files c fs env).result = .ok c) ∧
    (∀ files f, c.additional_dotenv_files = some files → f ∈ files → readFile fs f = none →
      (∃ e, (process_dotenv_files c fs env).result = .error e) ∧
      LogLine.errorLine (dotenvMsg c.dotenv_can_override f)
        ∈ (process_dotenv_files c fs env).logs) := by
  constructor
  · intro h
    rcases hadd : c.additional_dotenv_files with _ | files
    · rw [process_dotenv_files_none_eq c fs env hadd]
    · rw [process_dotenv_files_result_some c fs env files hadd,
        foldl_accum_ok c fs files _ _ (h files hadd)]
  · intro files f hadd hf hnone
    have hbad : readsOk fs f = false := by
      unfold readsOk
      rw [hnone]
    constructor
    · obtain ⟨e', he'⟩ := foldl_accum_error_of_bad c fs files
        (defaultDotenvStep c fs env).1 (defaultDotenvStep c fs env).2 (Except.ok ()) f hf hbad
      exact ⟨.dotenv e', by rw [process_dotenv_files_result_some c fs env files hadd, he']⟩
    · rw [process_dotenv_files_logs_some c fs env files hadd]
      exact foldl_logs_errorLine c fs files _ _ _ f hf hbad

/-- Witness for `process_dotenv_files_default_vs_supplied`: with no `.env`
present, a missing supplied file `a` produces an error and an `error!` record
naming `a`; and with only the default file configured, a missing `.env`
still yields success. -/
theorem process_dotenv_files_default_vs_supplied_witness :
    ((∃ e, (process_dotenv_files twoFilesConfig fsOnlyB []).result = Except.error e) ∧
      LogLine.errorLine (dotenvMsg false "a")
        ∈ (process_dotenv_files twoFilesConfig fsOnlyB []).logs) ∧
    (process_dotenv_files defaultConfig fsOnlyB []).result = .ok defaultConfig :=
  ⟨(process_dotenv_files_default_vs_supplied twoFilesConfig fsOnlyB []).2
      ["a", "b"] "a" rfl (List.mem_cons_self "a" ["b"]) rfl,
   (process_dotenv_files_default_vs_supplied defaultConfig fsOnlyB []).1
      (fun files hf => by cases hf)⟩

/-- C9: every failure arising from the default `.env` file — absence, read or
parse failure alike — is suppressed: `process_dotenv_files` can return an
error only because some `additional_dotenv_files()` entry fails to load. -/
theorem process_dotenv_files_error_only_from_supplied (c : Config) (fs : FS) (env : Env)
    (e : Error) (h : (process_dotenv_files c fs env).result = .error e) :
    ∃ files, c.additional_dotenv_files = some files ∧
      ∃ f ∈ files, readsOk fs f = false := by
  rcases hadd : c.additional_dotenv_files with _ | files
  · rw [process_dotenv_files_none_eq c fs env hadd] at h
    cases h
  · refine ⟨files, rfl, ?_⟩
    by_contra hall
    push_neg at hall
    have hok : ∀ f ∈ files, readsOk fs f = true := by
      intro f hf
      have hne := hall f hf
      revert hne
      cases readsOk fs f <;> simp
    rw [process_dotenv_files_result_some c fs env files hadd,
      foldl_accum_ok c fs files _ _ hok] at h
    cases h

/-- Witness for `process_dotenv_files_error_only_from_supplied`: a `.env`
that exists but cannot be parsed, together with a missing supplied file `a`. -/
theorem process_dotenv_files_error_only_from_supplied_witness :
    ∃ files, twoFilesConfig.additional_dotenv_files = some files ∧
      ∃ f ∈ files, readsOk ((".env", FileContent.bad) :: fsOnlyB) f = false :=
  process_dotenv_files_error_only_from_supplied twoFilesConfig
    ((".env", FileContent.bad) :: fsOnlyB) [] (.dotenv .io) (by decide)

/-- C7: every supplied file is attempted — each gets a log record naming it,
even after an earlier failure — and when the first of two supplied files fails
to load while the second succeeds, the call still returns the first file's
failure (the later success does not mask it). -/
theorem process_dotenv_files_attempts_all (c : Config) (fs : FS) (env : Env) :
    (∀ files f, c.additional_dotenv_files = some files → f ∈ files →
      LogLine.infoLine (dotenvMsg c.dotenv_can_override f)
          ∈ (process_dotenv_files c fs env).logs ∨
      LogLine.errorLine (dotenvMsg c.dotenv_can_override f)
          ∈ (process_dotenv_files c fs env).logs) ∧
    (∀ f1 f2 e1, c.additional_dotenv_files = some [f1, f2] →
      loadErr fs f1 = some e1 → readsOk fs f2 = true →
      (process_dotenv_files c fs env).result = .error (.dotenv e1)) := by
  constructor
  · intro files f hadd hf
    rw [process_dotenv_files_logs_some c fs env files hadd]
    exact foldl_logs_attempted c fs files _ _ _ f hf
  · intro f1 f2 e1 hadd hl1 hok2
    rw [process_dotenv_files_result_some c fs env [f1, f2] hadd]
    have he1 := fromFilenameWith_error_of_loadErr c.dotenv_can_override fs
      (defaultDotenvStep c fs env).1 f1 e1 hl1
    rw [List.foldl_cons]
    simp only [processOneFile, he1]
    obtain ⟨env', he2⟩ := fromFilenameWith_ok_of_readsOk c.dotenv_can_override fs
      (defaultDotenvStep c fs env).1 f2 hok2
    rw [List.foldl_cons]
    simp only [processOneFile, he2]
    rw [List.foldl_nil]

/-- Witness for `process_dotenv_files_attempts_all`: file `a` missing, file
`b` present — both are attempted, and the error reported is `a`'s I/O
failure. -/
theorem process_dotenv_files_attempts_all_witness :
    (process_dotenv_files twoFilesConfig fsOnlyB []).result =
      .error (.dotenv .io) ∧
    (LogLine.infoLine (dotenvMsg false "b")
        ∈ (process_dotenv_files twoFilesConfig fsOnlyB []).logs ∨
      LogLine.errorLine (dotenvMsg false "b")
        ∈ (process_dotenv_files twoFilesConfig fsOnlyB []).logs) :=
  ⟨(process_dotenv_files_attempts_all twoFilesConfig fsOnlyB []).2 "a" "b" .io rfl rfl rfl,
   (process_dotenv_files_attempts_all twoFilesConfig fsOnlyB []).1 ["a", "b"] "b" rfl
      (List.mem_cons_of_mem "a" (List.mem_cons_self "b" []))⟩

/-! ## Lemmas about `Entrypoint::entrypoint` -/

theorem entrypointCaseP1Err {α : Type} (c : Config) (parse : Env → Config) (fs : FS)
    (env : Env) (st : GlobalState) (f : Config → Except Error α) (e : Error)
    (h1 : (process_dotenv_files c fs env).result = .error e) :
    entrypoint c parse fs env st f =
      { env := (process_dotenv_files c fs env).env, state := st,
        logs := (process_dotenv_files c fs env).logs, result := .failed e } := by
  simp only [entrypoint, h1]

theorem entrypointCaseP2Err {α : Type} (c : Config) (parse : Env → Config) (fs : FS)
    (env : Env) (st : GlobalState) (f : Config → Except Error α) (cf : Config) (e : Error)
    (h1 : (process_dotenv_files c fs env).result = .ok cf)
    (h2 : (process_dotenv_files (parse (process_dotenv_files c fs env).env) fs
        (process_dotenv_files c fs env).env).result = .error e) :
    entrypoint c parse fs env st f =
      { env := (process_dotenv_files (parse (process_dotenv_files c fs env).env) fs
            (process_dotenv_files c fs env).env).env,
        state := st,
        logs := (process_dotenv_files c fs env).logs ++
          (process_dotenv_files (parse (process_dotenv_files c fs env).env) fs
            (process_dotenv_files c fs env).env).logs,
        result := .failed e } := by
  simp only [entrypoint, h1, h2]

theorem entrypointCaseInitErr {α : Type} (c : Config) (parse : Env → Config) (fs : FS)
    (env : Env) (st : GlobalState) (f : Config → Except Error α)
    (cf cf2 : Config) (e : Error)
    (h1 : (process_dotenv_files c fs env).result = .ok cf)
    (h2 : (process_dotenv_files (parse (process_dotenv_files c fs env).env) fs
        (process_dotenv_files c fs env).env).result = .ok cf2)
    (h3 : (log_init (parse (process_dotenv_files c fs env).env) none
        { st with tempLevel := some .info }).outcome = .failed e) :
    entrypoint c parse fs env st f =
      { env := (process_dotenv_files (parse (process_dotenv_files c fs env).env) fs
            (process_dotenv_files c fs env).env).env,
        state := { (log_init (parse (process_dotenv_files c fs env).env) none
            { st with tempLevel := some .info }).state with tempLevel := st.tempLevel },
        logs := (process_dotenv_files c fs env).logs ++
          (process_dotenv_files (parse (process_dotenv_files c fs env).env) fs
            (process_dotenv_files c fs env).env).logs ++
          (log_init (parse (process_dotenv_files c fs env).env) none
            { st with tempLevel := some .info }).logs,
        result := .failed e } := by
  simp only [entrypoint, h1, h2, h3]

theorem entrypointCaseSuccess {α : Type} (c : Config) (parse : Env → Config) (fs : FS)
    (env : Env) (st : GlobalState) (f : Config → Except Error α) (cf cf2 c3 : Config)
    (h1 : (process_dotenv_files c fs env).result = .ok cf)
    (h2 : (process_dotenv_files (parse (process_dotenv_files c fs env).env) fs
        (process_dotenv_files c fs env).env).result = .ok cf2)
    (h3 : (log_init (parse (process_dotenv_files c fs env).env) none
        { st with tempLevel := some .info }).outcome = .succeeded c3) :
    entrypoint c parse fs env st f =
      { env := (process_dotenv_files (parse (process_dotenv_files c fs env).env) fs
            (process_dotenv_files c fs env).env).env,
        state := { (log_init (parse (process_dotenv_files c fs env).env) none
            { st with tempLevel := some .info }).state with tempLevel := st.tempLevel },
        logs := (process_dotenv_files c fs env).logs ++
          (process_dotenv_files (parse (process_dotenv_files c fs env).env) fs
            (process_dotenv_files c fs env).env).logs ++
          (log_init (parse (process_dotenv_files c fs env).env) none
            { st with tempLevel := some .info }).logs ++
          [.infoLine "setup/config complete; executing entrypoint function"],
        result := match f c3 with
                  | .ok a => .succeeded a
                  | .error e => .failed e } := by
  simp only [entrypoint, h1, h2, h3]

/-- C1: when setup succeeds, `entrypoint` performs exactly the fixed sequence:
inside a scope with a temporary thread-default sink at level `info`, a first
`process_dotenv_files` on the given handle, a re-parse of a fresh handle from
the updated environment, a second `process_dotenv_files` on the fresh handle,
a `log_init` with no explicit layers; then the temporary sink scope is dropped
(the previous thread default is restored) and the user function runs on the
fresh handle returned by `log_init`, its result returned as `entrypoint`'s
result. -/
theorem entrypoint_sequence {α : Type} (c : Config) (parse : Env → Config) (fs : FS)
    (env : Env) (st : GlobalState) (f : Config → Except Error α) (cf cf2 c3 : Config)
    (h1 : (process_dotenv_files c fs env).result = .ok cf)
    (h2 : (process_dotenv_files (parse (process_dotenv_files c fs env).env) fs
        (process_dotenv_files c fs env).env).result = .ok cf2)
    (h3 : (log_init (parse (process_dotenv_files c fs env).env) none
        { st with tempLevel := some .info }).outcome = .succeeded c3) :
    entrypoint c parse fs env st f =
      { env := (process_dotenv_files (parse (process_dotenv_files c fs env).env) fs
            (process_dotenv_files c fs env).env).env,
        state := { (log_init (parse (process_dotenv_files c fs env).env) none
            { st with tempLevel := some .info }).state with tempLevel := st.tempLevel },
        logs := (process_dotenv_files c fs env).logs ++
          (process_dotenv_files (parse (process_dotenv_files c fs env).env) fs
            (process_dotenv_files c fs env).env).logs ++
          (log_init (parse (process_dotenv_files c fs env).env) none
            { st with tempLevel := some .info }).logs ++
          [.infoLine "setup/config complete; executing entrypoint function"],
        result := match f c3 with
                  | .ok a => .succeeded a
                  | .error e => .failed e } :=
  entrypointCaseSuccess c parse fs env st f cf cf2 c3 h1 h2 h3

/-- Witness for `entrypoint_sequence`: a fully default run over an empty file
system succeeds and returns the user function's value. -/
theorem entrypoint_sequence_witness :
    entrypoint defaultConfig (fun _ => defaultConfig) [] [] freshState
        (fun _ => Except.ok (0 : Nat)) =
      { env := (process_dotenv_files (defaultConfig) [] ([] : Env)).env,
        state := { (log_init defaultConfig none
            { freshState with tempLevel := some .info }).state with
          tempLevel := freshState.tempLevel },
        logs := (process_dotenv_files defaultConfig [] ([] : Env)).logs ++
          (process_dotenv_files defaultConfig [] ([] : Env)).logs ++
          (log_init defaultConfig none
            { freshState with tempLevel := some .info }).logs ++
          [.infoLine "setup/config complete; executing entrypoint function"],
        result := .succeeded 0 } :=
  entrypoint_sequence defaultConfig (fun _ => defaultConfig) [] [] freshState
    (fun _ => Except.ok (0 : Nat)) defaultConfig defaultConfig defaultConfig
    rfl rfl rfl

/-- C8: any error from either `process_dotenv_files` pass or from `log_init`
becomes `entrypoint`'s result unchanged — and since these conclusions hold for
every user function `f`, the user function is never invoked on a setup
failure; when setup succeeds, `entrypoint` returns exactly the user
function's result, success or error, unwrapped and unretried. -/
theorem entrypoint_error_propagation {α : Type} (c : Config) (parse : Env → Config)
    (fs : FS) (env : Env) (st : GlobalState) (f : Config → Except Error α) :
    (∀ e, (process_dotenv_files c fs env).result = .error e →
      (entrypoint c parse fs env st f).result = .failed e) ∧
    (∀ cf e, (process_dotenv_files c fs env).result = .ok cf →
      (process_dotenv_files (parse (process_dotenv_files c fs env).env) fs
          (process_dotenv_files c fs env).env).result = .error e →
      (entrypoint c parse fs env st f).result = .failed e) ∧
    (∀ cf cf2 e, (process_dotenv_files c fs env).result = .ok cf →
      (process_dotenv_files (parse (process_dotenv_files c fs env).env) fs
          (process_dotenv_files c fs env).env).result = .ok cf2 →
      (log_init (parse (process_dotenv_files c fs env).env) none
          { st with tempLevel := some .info }).outcome = .failed e →
      (entrypoint c parse fs env st f).result = .failed e) ∧
    (∀ cf cf2 c3, (process_dotenv_files c fs env).result = .ok cf →
      (process_dotenv_files (parse (process_dotenv_files c fs env).env) fs
          (process_dotenv_files c fs env).env).result = .ok cf2 →
      (log_init (parse (process_dotenv_files c fs env).env) none
          { st with tempLevel := some .info }).outcome = .succeeded c3 →
      (∀ a, f c3 = .ok a → (entrypoint c parse fs env st f).result = .succeeded a) ∧
      (∀ e, f c3 = .error e → (entrypoint c parse fs env st f).result = .failed e)) := by
  refine ⟨?_, ?_, ?_, ?_⟩
  · intro e h1
    rw [entrypointCaseP1Err c parse fs env st f e h1]
  · intro cf e h1 h2
    rw [entrypointCaseP2Err c parse fs env st f cf e h1 h2]
  · intro cf cf2 e h1 h2 h3
    rw [entrypointCaseInitErr c parse fs env st f cf cf2 e h1 h2 h3]
  · intro cf cf2 c3 h1 h2 h3
    constructor
    · intro a ha
      rw [entrypointCaseSuccess c parse fs env st f cf cf2 c3 h1 h2 h3]
      simp only [ha]
    · intro e he
      rw [entrypointCaseSuccess c parse fs env st f cf cf2 c3 h1 h2 h3]
      simp only [he]

/-- Witness for `entrypoint_error_propagation`: a missing supplied dotenv
file makes `entrypoint` fail with that file's I/O error, for a user function
that would have returned success. -/
theorem entrypoint_error_propagation_witness :
    (entrypoint twoFilesConfig (fun _ => twoFilesConfig) fsOnlyB [] freshState
        (fun _ => Except.ok (0 : Nat))).result = .failed (.dotenv .io) :=
  (entrypoint_error_propagation twoFilesConfig (fun _ => twoFilesConfig) fsOnlyB []
      freshState (fun _ => Except.ok (0 : Nat))).1 (.dotenv .io) (by decide)
